import Mathlib

/-!
Verification of the LSB steganography core of src/main.py
(class ImageSteganography).

Embedding choices:
- A pixel is an RGB triple of natural channel values (the code converts
  every image to RGB before touching pixels, so each pixel is a 3-tuple
  of ints in [0,255]).
- A pixel grid is the row-major flattened list of pixels; the width and
  height are carried separately where the code uses them (the capacity
  check in encode_message and the putpixel cursor in encrypt_image).
- A message is the list of character codes (ord values) of the Python
  string; the claims restrict codes to [0,255], where
  format(ord(c), padded to 8 binary digits) is exactly the 8 bits
  Nat.testBit 7 down to Nat.testBit 0, most significant first.
- Python exceptions become Except String; the strings are the ones the
  code raises.
-/

namespace Stego

/-- RGB pixel: (red, green, blue) channel values. -/
abbrev Pixel := Nat × Nat × Nat

/-- One channel write of generate_data (main.py lines 43-49): if the data
bit is 1 and the value is even, add 1 (or subtract 1 at 255); if the bit
is 0 and the value is odd, subtract 1 (or add 1 at 0); otherwise leave
the value unchanged.  The bit is true for the character 1, false for 0. -/
def write_bit (v : Nat) (b : Bool) : Nat :=
  if b then
    if v % 2 == 0 then (if v < 255 then v + 1 else v - 1) else v
  else
    if v % 2 == 1 then (if v > 0 then v - 1 else v + 1) else v

/-- Encoding of one character code into one group of 3 pixels
(main.py lines 36-54): the 9 channel values are collected in scan order,
the least significant bits of the first 8 are set to the bits of the
code most-significant-first (string index j of the 8-digit binary
representation is Nat.testBit (7 - j) for codes below 256), and the 9th
channel passes through unchanged. -/
def encodeGroup (c : Nat) : Pixel → Pixel → Pixel → Pixel × Pixel × Pixel
  | (v0, v1, v2), (v3, v4, v5), (v6, v7, v8) =>
    ((write_bit v0 (c.testBit 7), write_bit v1 (c.testBit 6), write_bit v2 (c.testBit 5)),
     (write_bit v3 (c.testBit 4), write_bit v4 (c.testBit 3), write_bit v5 (c.testBit 2)),
     (write_bit v6 (c.testBit 1), write_bit v7 (c.testBit 0), v8))

/-- Character code read from one group of 3 pixels
(main.py lines 124-135): concatenate the parities of the first 8 of the
9 channel values most-significant-first and interpret as binary. -/
def read_code : Pixel → Pixel → Pixel → Nat
  | (v0, v1, v2), (v3, v4, v5), (v6, v7, _) =>
    List.foldl (fun acc v => acc * 2 + v % 2) 0 [v0, v1, v2, v3, v4, v5, v6, v7]

/-- Group loop of generate_data (main.py lines 34-57): for each code of
the data, take 3 pixels from the input (error with the message of line 57
when fewer than 3 remain) and yield the encoded group. -/
def generate_groups : List Pixel → List Nat → Except String (List Pixel)
  | _, [] => .ok []
  | p1 :: p2 :: p3 :: rest, c :: cs =>
    match generate_groups rest cs with
    | .ok t =>
      .ok ((encodeGroup c p1 p2 p3).1 :: (encodeGroup c p1 p2 p3).2.1 ::
        (encodeGroup c p1 p2 p3).2.2 :: t)
    | .error e => .error e
  | _, _ :: _ => .error "Image is too small to encode this message!"

/-- generate_data (main.py lines 20-57): append the code-0 terminator to
the data, then encode group by group. -/
def generate_data (pixels : List Pixel) (data : List Nat) : Except String (List Pixel) :=
  generate_groups pixels (data ++ [0])

/-- Pixel-writing loop of encrypt_image (main.py lines 63-76): write each
yielded pixel at cursor (x, y), advancing x and wrapping to the next row
at the width; error with the message of line 67 when y reaches the
height.  putpixel (x, y) sets row-major index y * width + x. -/
def put_loop (width height : Nat) : List Pixel → Nat → Nat → List Pixel → Except String (List Pixel)
  | img, _, _, [] => .ok img
  | img, x, y, p :: ps =>
    if height ≤ y then .error "Image is too small for this message!"
    else
      let img2 := img.set (y * width + x) p
      if width ≤ x + 1 then put_loop width height img2 0 (y + 1) ps
      else put_loop width height img2 (x + 1) y ps

/-- encrypt_image (main.py lines 59-76): run generate_data over the
pixels of the grid and write the yielded pixels back from (0, 0) on. -/
def encrypt_image (width height : Nat) (img : List Pixel) (data : List Nat) :
    Except String (List Pixel) :=
  match generate_data img data with
  | .ok ps => put_loop width height img 0 0 ps
  | .error e => .error e

/-- Capacity check of encode_message (main.py lines 90-95), the spec's
Capacity Checker: needed = (message length + 1) * 3, available =
width * height; fail carrying (needed, available) when available is
smaller. -/
def check (width height msg_len : Nat) : Except (Nat × Nat) Unit :=
  let min_pixels_needed := (msg_len + 1) * 3
  let total_pixels := width * height
  if total_pixels < min_pixels_needed then .error (min_pixels_needed, total_pixels)
  else .ok ()

/-- Core of encode_message (main.py lines 88-99), file handling elided:
run the capacity check, then encrypt a copy of the grid. -/
def encode_message (width height : Nat) (img : List Pixel) (text : List Nat) :
    Except String (List Pixel) :=
  let min_pixels_needed := (text.length + 1) * 3
  let total_pixels := width * height
  if total_pixels < min_pixels_needed then
    .error "Image is too small!"
  else
    encrypt_image width height img text

/-- Decoding loop of decode_message (main.py lines 121-144): take 3
pixels per iteration (stop with the data accumulated so far when fewer
than 3 remain), read the character code, stop before accumulating when
the code is the 0 terminator. -/
def decode_loop : List Pixel → List Nat → List Nat
  | p1 :: p2 :: p3 :: rest, data =>
    let c := read_code p1 p2 p3
    if c = 0 then data else decode_loop rest (data ++ [c])
  | _, data => data

/-- decode_message (main.py lines 108-149), file handling elided: run the
decoding loop; error with the message of line 147 when no data was
accumulated. -/
def decode_message (img : List Pixel) : Except String (List Nat) :=
  let data := decode_loop img []
  if data.isEmpty then .error "No hidden message found in this image!"
  else .ok data

/-- Instrumented decoding loop, for stating properties of the decoder:
same accumulation as decode_loop, also reporting whether the loop ended
because a code-0 terminator was produced (true) or because the grid ran
out of full 3-pixel groups (false). -/
def decode_trace : List Pixel → List Nat → List Nat × Bool
  | p1 :: p2 :: p3 :: rest, data =>
    let c := read_code p1 p2 p3
    if c = 0 then (data, true) else decode_trace rest (data ++ [c])
  | _, data => (data, false)

/- ------------------------------------------------------------------ -/
/- Helper lemmas -/

/-- The channel written by write_bit always has the requested parity. -/
theorem write_bit_mod_two (v : Nat) (b : Bool) :
    write_bit v b % 2 = (if b then 1 else 0) := by
  rcases b with _ | _ <;> simp only [write_bit, beq_iff_eq, if_true, if_false] <;>
    split_ifs <;> omega

/-- The written channel differs from the input by at most 1. -/
theorem write_bit_dist (v : Nat) (b : Bool) :
    v ≤ write_bit v b + 1 ∧ write_bit v b ≤ v + 1 := by
  rcases b with _ | _ <;> simp only [write_bit, beq_iff_eq, if_true, if_false] <;>
    split_ifs <;> omega

/-- A bit test, as a 0-or-1 value, is a division-and-remainder. -/
theorem ite_testBit (c i k : Nat) (hk : 2 ^ i = k) :
    (if c.testBit i then (1 : Nat) else 0) = c / k % 2 := by
  subst hk
  rw [Nat.testBit_to_div_mod]
  rcases Nat.mod_two_eq_zero_or_one (c / 2 ^ i) with h | h <;> simp [h]

set_option maxHeartbeats 1000000 in
/-- Decoding a group encoded from a code below 256 recovers the code,
whatever the carrier pixels were. -/
theorem read_encodeGroup (c : Nat) (hc : c < 256) (p1 p2 p3 : Pixel) :
    read_code (encodeGroup c p1 p2 p3).1 (encodeGroup c p1 p2 p3).2.1
      (encodeGroup c p1 p2 p3).2.2 = c := by
  obtain ⟨v0, v1, v2⟩ := p1
  obtain ⟨v3, v4, v5⟩ := p2
  obtain ⟨v6, v7, v8⟩ := p3
  simp only [encodeGroup, read_code, List.foldl, write_bit_mod_two]
  rw [ite_testBit c 7 128 (by norm_num), ite_testBit c 6 64 (by norm_num),
    ite_testBit c 5 32 (by norm_num), ite_testBit c 4 16 (by norm_num),
    ite_testBit c 3 8 (by norm_num), ite_testBit c 2 4 (by norm_num),
    ite_testBit c 1 2 (by norm_num), ite_testBit c 0 1 (by norm_num)]
  omega

/-- On a grid with at least 3 pixels per code, generate_groups succeeds
and yields exactly 3 pixels per code. -/
theorem generate_groups_ok : ∀ (cs : List Nat) (grid : List Pixel),
    3 * cs.length ≤ grid.length →
    ∃ out, generate_groups grid cs = .ok out ∧ out.length = 3 * cs.length := by
  intro cs
  induction cs with
  | nil =>
    intro grid h
    exact ⟨[], by simp [generate_groups], rfl⟩
  | cons c cs ih =>
    intro grid h
    rcases grid with _ | ⟨p1, grid⟩
    · simp at h
    rcases grid with _ | ⟨p2, grid⟩
    · simp at h; omega
    rcases grid with _ | ⟨p3, rest⟩
    · simp at h; omega
    obtain ⟨out, hout, hlen⟩ := ih rest (by simp at h ⊢; omega)
    refine ⟨(encodeGroup c p1 p2 p3).1 :: (encodeGroup c p1 p2 p3).2.1 ::
      (encodeGroup c p1 p2 p3).2.2 :: out, ?_, ?_⟩
    · simp [generate_groups, hout]
    · simp [hlen]; omega

/-- The accumulated data of decode_trace is exactly what decode_loop
accumulates. -/
theorem decode_trace_fst : ∀ (grid : List Pixel) (acc : List Nat),
    (decode_trace grid acc).1 = decode_loop grid acc
  | p1 :: p2 :: p3 :: rest, acc => by
    simp only [decode_trace, decode_loop]
    split
    · rfl
    · exact decode_trace_fst rest _
  | [], _ => rfl
  | [_], _ => rfl
  | [_, _], _ => rfl

/-- Decoding the pixels generated from terminated data made of nonzero
codes below 256 recovers exactly those codes, whatever follows the
generated pixels and whatever was already accumulated. -/
theorem decode_generated : ∀ (cs : List Nat), (∀ c ∈ cs, c < 256 ∧ c ≠ 0) →
    ∀ (grid out extra : List Pixel) (acc : List Nat),
    generate_groups grid (cs ++ [0]) = .ok out →
    decode_loop (out ++ extra) acc = acc ++ cs := by
  intro cs
  induction cs with
  | nil =>
    intro _ grid out extra acc hgen
    rcases grid with _ | ⟨p1, grid⟩
    · simp [generate_groups] at hgen
    rcases grid with _ | ⟨p2, grid⟩
    · simp [generate_groups] at hgen
    rcases grid with _ | ⟨p3, rest⟩
    · simp [generate_groups] at hgen
    simp only [List.nil_append, generate_groups] at hgen
    rw [Except.ok.injEq] at hgen
    subst hgen
    simp [decode_loop, read_encodeGroup 0 (by norm_num)]
  | cons c cs ih =>
    intro hval grid out extra acc hgen
    rcases grid with _ | ⟨p1, grid⟩
    · simp [generate_groups] at hgen
    rcases grid with _ | ⟨p2, grid⟩
    · simp [generate_groups] at hgen
    rcases grid with _ | ⟨p3, rest⟩
    · simp [generate_groups] at hgen
    simp only [List.cons_append, generate_groups, List.append_eq] at hgen
    rcases hrec : generate_groups rest (cs ++ [0]) with e | t
    · rw [hrec] at hgen; exact absurd hgen (by simp)
    rw [hrec, Except.ok.injEq] at hgen
    subst hgen
    have hc : c < 256 ∧ c ≠ 0 := hval c (by simp)
    simp only [List.cons_append, decode_loop, read_encodeGroup c hc.1, if_neg hc.2,
      List.append_eq]
    rw [ih (fun d hd => hval d (by simp [hd])) rest t extra (acc ++ [c]) hrec]
    simp

/-- Taking one element past an updated position splits off the written
element. -/
theorem take_set_succ {α : Type} (a : α) : ∀ (l : List α) (i : Nat), i < l.length →
    (l.set i a).take (i + 1) = l.take i ++ [a] := by
  intro l
  induction l with
  | nil => intro i h; simp at h
  | cons b l ih =>
    intro i h
    cases i with
    | zero => simp
    | succ i => simp [ih i (by simp at h; omega)]

/-- Dropping strictly past an updated position forgets the update. -/
theorem drop_set_of_lt {α : Type} (a : α) : ∀ (l : List α) (i j : Nat), i < j →
    (l.set i a).drop j = l.drop j := by
  intro l
  induction l with
  | nil => intro i j _; simp
  | cons b l ih =>
    intro i j h
    cases i with
    | zero => cases j with | zero => omega | succ j => simp
    | succ i => cases j with | zero => omega | succ j => simp [ih i j (by omega)]

/-- The putpixel loop of encrypt_image writes the yielded pixels over the
row-major positions starting at the cursor, leaving everything before
and after unchanged, and never hits the bounds error while the pixels to
write fit in the grid. -/
theorem put_loop_ok (width height : Nat) :
    ∀ (ps img : List Pixel) (x y : Nat),
    x < width →
    y * width + x + ps.length ≤ width * height →
    img.length = width * height →
    put_loop width height img x y ps =
      .ok (img.take (y * width + x) ++ ps ++ img.drop (y * width + x + ps.length)) := by
  intro ps
  induction ps with
  | nil =>
    intro img x y _ _ _
    simp [put_loop, List.take_append_drop]
  | cons p ps ih =>
    intro img x y hx hcap himg
    simp only [List.length_cons] at hcap
    have hy : y < height := by
      by_contra hy
      push_neg at hy
      have h1 : height * width ≤ y * width := Nat.mul_le_mul_right width hy
      have h2 : width * height = height * width := Nat.mul_comm width height
      omega
    have hilt : y * width + x < img.length := by omega
    simp only [put_loop]
    rw [if_neg (by omega : ¬ height ≤ y)]
    by_cases hxw : width ≤ x + 1
    · rw [if_pos hxw]
      have e1 : (y + 1) * width + 0 = y * width + x + 1 := by
        rw [Nat.succ_mul]; omega
      rw [ih (img.set (y * width + x) p) 0 (y + 1) (by omega)
        (by rw [e1]; omega)
        (by simp [List.length_set, himg])]
      rw [e1, take_set_succ p img (y * width + x) hilt,
        drop_set_of_lt p img (y * width + x) (y * width + x + 1 + ps.length) (by omega)]
      have e2 : y * width + x + 1 + ps.length = y * width + x + (ps.length + 1) := by omega
      rw [e2]
      simp
    · rw [if_neg hxw]
      have e1 : y * width + (x + 1) = y * width + x + 1 := by omega
      rw [ih (img.set (y * width + x) p) (x + 1) y (by omega)
        (by rw [e1]; omega)
        (by simp [List.length_set, himg])]
      rw [e1, take_set_succ p img (y * width + x) hilt,
        drop_set_of_lt p img (y * width + x) (y * width + x + 1 + ps.length) (by omega)]
      have e2 : y * width + x + 1 + ps.length = y * width + x + (ps.length + 1) := by omega
      rw [e2]
      simp

/-- Under the capacity bound, encode_message succeeds and its output is
the generated groups followed by the untouched remainder of the grid. -/
theorem encode_message_eq (width height : Nat) (img : List Pixel) (text : List Nat)
    (himg : img.length = width * height)
    (hcap : (text.length + 1) * 3 ≤ width * height) :
    ∃ out, generate_groups img (text ++ [0]) = .ok out ∧
      out.length = 3 * (text.length + 1) ∧
      encode_message width height img text = .ok (out ++ img.drop (3 * (text.length + 1))) := by
  obtain ⟨out, hout, hlen⟩ := generate_groups_ok (text ++ [0]) img (by simp; omega)
  simp only [List.length_append, List.length_cons, List.length_nil, Nat.zero_add] at hlen
  refine ⟨out, hout, by simpa using hlen, ?_⟩
  have hw : 0 < width := by
    rcases Nat.eq_zero_or_pos width with h0 | h0
    · rw [h0] at hcap; simp at hcap
    · exact h0
  unfold encode_message
  rw [if_neg (by omega)]
  unfold encrypt_image generate_data
  rw [hout]
  show put_loop width height img 0 0 out = _
  rw [put_loop_ok width height out img 0 0 hw (by simp; omega) himg]
  simp only [Nat.zero_mul, Nat.zero_add, List.take_zero, List.nil_append]
  rw [hlen]

/-- Channel values of a pixel in scan order. -/
def channels (p : Pixel) : List Nat := [p.1, p.2.1, p.2.2]

/- ------------------------------------------------------------------ -/
/- Claim theorems -/

/-- Claim C1, amended (round trip): for every nonempty message whose
character codes are in [0,255] and nonzero, and every grid with at least
3 times (length + 1) pixels, decoding the encoded grid yields exactly
the message.  For the empty message the decoder raises instead (see the
counterexample): the accumulated data is empty, so decode_message
reports that no hidden message was found. -/
theorem C1_roundtrip (width height : Nat) (grid : List Pixel) (text : List Nat)
    (hval : ∀ c ∈ text, c < 256 ∧ c ≠ 0) (hne : text ≠ [])
    (hgrid : grid.length = width * height)
    (hcap : 3 * (text.length + 1) ≤ width * height) :
    ∃ out, encode_message width height grid text = .ok out ∧
      decode_message out = .ok text := by
  obtain ⟨gen, hgen, hlen, henc⟩ :=
    encode_message_eq width height grid text hgrid (by omega)
  refine ⟨gen ++ grid.drop (3 * (text.length + 1)), henc, ?_⟩
  have hdec : decode_loop (gen ++ grid.drop (3 * (text.length + 1))) [] = text := by
    simpa using decode_generated text hval grid gen (grid.drop (3 * (text.length + 1))) [] hgen
  unfold decode_message
  rw [hdec, if_neg (by simp [List.isEmpty_iff, hne])]

/-- Witness for C1: the message with the single code 65 survives the
round trip through a 6-pixel black grid. -/
theorem C1_roundtrip_witness :
    ∃ out, encode_message 6 1 (List.replicate 6 ((0 : Nat), (0 : Nat), (0 : Nat))) [65] = .ok out ∧
      decode_message out = .ok [65] :=
  C1_roundtrip 6 1 (List.replicate 6 ((0 : Nat), (0 : Nat), (0 : Nat))) [65]
    (by decide) (by decide) (by decide) (by decide)

/-- Counterexample for C1 as stated: the round trip fails at the empty
message, which the claim includes (length at least 0).  Encoding the
empty message into a 3-pixel grid succeeds (all channels even, so the
terminator leaves them unchanged), but decoding raises instead of
returning the empty message. -/
theorem C1_counterexample :
    encode_message 3 1 [(10, 20, 30), (40, 50, 60), (70, 80, 90)] [] =
      .ok [(10, 20, 30), (40, 50, 60), (70, 80, 90)] ∧
    decode_message [(10, 20, 30), (40, 50, 60), (70, 80, 90)] ≠ .ok [] := by
  refine ⟨rfl, fun h => ?_⟩
  rw [show decode_message [(10, 20, 30), (40, 50, 60), (70, 80, 90)] =
    Except.error "No hidden message found in this image!" from rfl] at h
  exact Except.noConfusion h

/-- Claim C2, amended: encoding the empty message into a grid with at
least 3 pixels consumes exactly the first 3 pixels, writing only the
terminator group, and leaves the rest untouched; but decoding the
result raises the no-hidden-message error rather than returning the
empty message, because the accumulated data is empty. -/
theorem C2_empty (width height : Nat) (p1 p2 p3 : Pixel) (rest : List Pixel)
    (hgrid : (p1 :: p2 :: p3 :: rest : List Pixel).length = width * height) :
    encode_message width height (p1 :: p2 :: p3 :: rest) [] =
      .ok ((encodeGroup 0 p1 p2 p3).1 :: (encodeGroup 0 p1 p2 p3).2.1 ::
        (encodeGroup 0 p1 p2 p3).2.2 :: rest) ∧
    decode_message ((encodeGroup 0 p1 p2 p3).1 :: (encodeGroup 0 p1 p2 p3).2.1 ::
        (encodeGroup 0 p1 p2 p3).2.2 :: rest) =
      .error "No hidden message found in this image!" := by
  obtain ⟨gen, hgen, hlen, henc⟩ :=
    encode_message_eq width height (p1 :: p2 :: p3 :: rest) [] hgrid
      (by simp at hgrid ⊢; omega)
  have h0 : read_code (encodeGroup 0 p1 p2 p3).1 (encodeGroup 0 p1 p2 p3).2.1
      (encodeGroup 0 p1 p2 p3).2.2 = 0 := read_encodeGroup 0 (by norm_num) p1 p2 p3
  constructor
  · simp only [List.nil_append, generate_groups] at hgen
    rw [Except.ok.injEq] at hgen
    subst hgen
    simpa using henc
  · simp [decode_message, decode_loop, h0]

/-- Witness for C2: a concrete 4-pixel grid. -/
theorem C2_empty_witness :
    encode_message 4 1 [((7 : Nat), (8 : Nat), (9 : Nat)), (1, 2, 3), (4, 5, 6), (200, 201, 202)] [] =
      .ok ((encodeGroup 0 (7, 8, 9) (1, 2, 3) (4, 5, 6)).1 ::
        (encodeGroup 0 (7, 8, 9) (1, 2, 3) (4, 5, 6)).2.1 ::
        (encodeGroup 0 (7, 8, 9) (1, 2, 3) (4, 5, 6)).2.2 :: [(200, 201, 202)]) ∧
    decode_message ((encodeGroup 0 (7, 8, 9) (1, 2, 3) (4, 5, 6)).1 ::
        (encodeGroup 0 (7, 8, 9) (1, 2, 3) (4, 5, 6)).2.1 ::
        (encodeGroup 0 (7, 8, 9) (1, 2, 3) (4, 5, 6)).2.2 :: [(200, 201, 202)]) =
      .error "No hidden message found in this image!" :=
  C2_empty 4 1 (7, 8, 9) (1, 2, 3) (4, 5, 6) [(200, 201, 202)] (by decide)

/-- Counterexample for C2 as stated: decoding the grid produced by
encoding the empty message yields an error, not the empty message. -/
theorem C2_counterexample :
    encode_message 3 1 [(2, 3, 4), (5, 6, 7), (8, 9, 1)] [] =
      .ok [(2, 2, 4), (4, 6, 6), (8, 8, 1)] ∧
    decode_message [(2, 2, 4), (4, 6, 6), (8, 8, 1)] ≠ .ok [] := by
  refine ⟨rfl, fun h => ?_⟩
  rw [show decode_message [(2, 2, 4), (4, 6, 6), (8, 8, 1)] =
    Except.error "No hidden message found in this image!" from rfl] at h
  exact Except.noConfusion h

/-- Claim C3, amended: the decoder raises the no-hidden-message error
exactly when zero characters were accumulated, regardless of whether a
terminator was reached; in every other case it returns the accumulated
characters.  decode_trace runs the same loop and additionally records
whether the loop stopped on a terminator (true) or on grid exhaustion
(false); only the accumulated data decides between error and success. -/
theorem C3_error_iff_empty (grid : List Pixel) :
    decode_message grid =
      if (decode_trace grid []).1.isEmpty then .error "No hidden message found in this image!"
      else .ok (decode_trace grid []).1 := by
  simp only [decode_message, decode_trace_fst]

/-- Counterexample for C3 as stated: on a 3-pixel all-zero grid the
terminator is reached immediately (trace flag true), yet the decoder
raises the no-hidden-message error, contradicting the claim that it
raises only when no terminator was ever reached. -/
theorem C3_counterexample :
    decode_trace [(0, 0, 0), (0, 0, 0), (0, 0, 0)] [] = ([], true) ∧
    decode_message [(0, 0, 0), (0, 0, 0), (0, 0, 0)] =
      .error "No hidden message found in this image!" := by
  exact ⟨rfl, rfl⟩

/-- Claim C4: the capacity check fails exactly when the pixel count
width * height is below 3 * (message length + 1), reporting needed and
available on failure; in particular check 10 1 50 fails with needed 153
and available 10. -/
theorem C4_capacity :
    (∀ width height msg_len : Nat,
      check width height msg_len =
        if width * height < 3 * (msg_len + 1) then .error (3 * (msg_len + 1), width * height)
        else .ok ()) ∧
    check 10 1 50 = .error (153, 10) := by
  refine ⟨fun width height msg_len => ?_, rfl⟩
  unfold check
  rw [Nat.mul_comm (msg_len + 1) 3]

/-- Claim C5: every pixel of the encoded grid at scan-order index at
least 3 * (message length + 1) is identical to the corresponding pixel
of the source grid. -/
theorem C5_untouched_tail (width height : Nat) (grid : List Pixel) (text : List Nat)
    (hval : ∀ c ∈ text, c < 256 ∧ c ≠ 0)
    (hgrid : grid.length = width * height)
    (hcap : 3 * (text.length + 1) ≤ width * height) :
    ∃ out, encode_message width height grid text = .ok out ∧
      ∀ i, 3 * (text.length + 1) ≤ i → out[i]? = grid[i]? := by
  obtain ⟨gen, hgen, hlen, henc⟩ :=
    encode_message_eq width height grid text hgrid (by omega)
  refine ⟨gen ++ grid.drop (3 * (text.length + 1)), henc, ?_⟩
  intro i hi
  rw [List.getElem?_append_right (by omega), List.getElem?_drop]
  congr 1
  omega

/-- Witness for C5: encoding the code 66 into a 9-pixel grid leaves the
tail from index 6 on untouched. -/
theorem C5_untouched_tail_witness :
    ∃ out, encode_message 3 3 (List.replicate 9 ((3 : Nat), (4 : Nat), (5 : Nat))) [66] = .ok out ∧
      ∀ i, 3 * (1 + 1) ≤ i → out[i]? = (List.replicate 9 ((3 : Nat), (4 : Nat), (5 : Nat)))[i]? :=
  C5_untouched_tail 3 3 (List.replicate 9 ((3 : Nat), (4 : Nat), (5 : Nat))) [66]
    (by decide) (by decide) (by decide)

/-- Claim C6: the parity of the written channel always equals the
requested bit, for every channel value in [0,255] and both bits. -/
theorem C6_parity_roundtrip (v : Nat) (hv : v ≤ 255) (b : Bool) :
    write_bit v b % 2 = (if b then 1 else 0) :=
  write_bit_mod_two v b

/-- Witness for C6 at channel value 200 and bit 1. -/
theorem C6_parity_roundtrip_witness :
    200 ≤ 255 ∧ write_bit 200 true % 2 = (if true then 1 else 0) :=
  ⟨by decide, C6_parity_roundtrip 200 (by decide) true⟩

/-- Claim C7: the written channel differs from the input channel by at
most 1 in exact integer arithmetic, for every channel value in [0,255]
and both bits. -/
theorem C7_bounded_distortion (v : Nat) (hv : v ≤ 255) (b : Bool) :
    ((write_bit v b : Int) - (v : Int)).natAbs ≤ 1 := by
  have h := write_bit_dist v b
  omega

/-- Witness for C7 at channel value 255 and bit 0. -/
theorem C7_bounded_distortion_witness :
    255 ≤ 255 ∧ ((write_bit 255 false : Int) - (255 : Int)).natAbs ≤ 1 :=
  ⟨by decide, C7_bounded_distortion 255 (by decide) false⟩

/-- Claim C8: encoding the codes 72 and 105 into a 3 by 3 all-black grid
produces the expected pixels, whose first 8 channel parities per group
are the bit patterns of 72, 105 and 0, every channel value is 0 or 1,
and decoding returns exactly the codes 72 and 105. -/
theorem C8_concrete :
    encode_message 3 3 (List.replicate 9 ((0 : Nat), (0 : Nat), (0 : Nat))) [72, 105] =
      .ok [(0, 1, 0), (0, 1, 0), (0, 0, 0),
           (0, 1, 1), (0, 1, 0), (0, 1, 0),
           (0, 0, 0), (0, 0, 0), (0, 0, 0)] ∧
    ((channels (0, 1, 0) ++ channels (0, 1, 0) ++ channels (0, 0, 0)).take 8).map (· % 2) =
      [0, 1, 0, 0, 1, 0, 0, 0] ∧
    ((channels (0, 1, 1) ++ channels (0, 1, 0) ++ channels (0, 1, 0)).take 8).map (· % 2) =
      [0, 1, 1, 0, 1, 0, 0, 1] ∧
    ((channels (0, 0, 0) ++ channels (0, 0, 0) ++ channels (0, 0, 0)).take 8).map (· % 2) =
      [0, 0, 0, 0, 0, 0, 0, 0] ∧
    (∀ p ∈ [((0 : Nat), (1 : Nat), (0 : Nat)), (0, 1, 0), (0, 0, 0),
           (0, 1, 1), (0, 1, 0), (0, 1, 0),
           (0, 0, 0), (0, 0, 0), (0, 0, 0)], p.1 ≤ 1 ∧ p.2.1 ≤ 1 ∧ p.2.2 ≤ 1) ∧
    decode_message [(0, 1, 0), (0, 1, 0), (0, 0, 0),
           (0, 1, 1), (0, 1, 0), (0, 1, 0),
           (0, 0, 0), (0, 0, 0), (0, 0, 0)] = .ok [72, 105] := by
  exact ⟨rfl, rfl, rfl, rfl, by decide, rfl⟩

/-- Claim C9: when the decoding loop stops because the grid ran out of
full 3-pixel groups without producing a terminator (trace flag false),
and at least one character was accumulated, the decoder returns the
accumulated text as a successful result. -/
theorem C9_partial_success (grid : List Pixel) (acc : List Nat)
    (htrace : decode_trace grid [] = (acc, false)) (hne : acc ≠ []) :
    decode_message grid = .ok acc := by
  have h1 : decode_loop grid [] = acc := by
    rw [← decode_trace_fst, htrace]
  unfold decode_message
  rw [h1, if_neg (by simp [List.isEmpty_iff, hne])]

/-- Witness for C9: a 4-pixel grid whose first group carries the code
128 and whose single leftover pixel exhausts the grid. -/
theorem C9_partial_success_witness :
    decode_trace [((1 : Nat), (0 : Nat), (0 : Nat)), (0, 0, 0), (0, 0, 0), (0, 0, 0)] [] =
      ([128], false) ∧
    decode_message [((1 : Nat), (0 : Nat), (0 : Nat)), (0, 0, 0), (0, 0, 0), (0, 0, 0)] =
      .ok [128] :=
  ⟨by decide,
    C9_partial_success [((1 : Nat), (0 : Nat), (0 : Nat)), (0, 0, 0), (0, 0, 0), (0, 0, 0)]
      [128] (by decide) (by decide)⟩

/-- Claim C10: whenever the upfront capacity check passes and the grid
really has width * height pixels, encoding runs to completion with a
successful result, so neither internal too-small exception (the one in
generate_data on iterator exhaustion, nor the one in encrypt_image when
the write cursor passes the last row) is ever raised. -/
theorem C10_no_internal_errors (width height : Nat) (grid : List Pixel) (text : List Nat)
    (hval : ∀ c ∈ text, c < 256)
    (hgrid : grid.length = width * height)
    (hcap : 3 * (text.length + 1) ≤ width * height) :
    ∃ out, encode_message width height grid text = .ok out := by
  obtain ⟨gen, hgen, hlen, henc⟩ :=
    encode_message_eq width height grid text hgrid (by omega)
  exact ⟨gen ++ grid.drop (3 * (text.length + 1)), henc⟩

/-- Witness for C10: encoding the code 7 into a 6-pixel grid succeeds. -/
theorem C10_no_internal_errors_witness :
    ∃ out, encode_message 2 3 (List.replicate 6 ((9 : Nat), (9 : Nat), (9 : Nat))) [7] = .ok out :=
  C10_no_internal_errors 2 3 (List.replicate 6 ((9 : Nat), (9 : Nat), (9 : Nat))) [7]
    (by decide) (by decide) (by decide)

end Stego
